import Mathlib

/-!
Verification development for the IMAP response-decoding core of `anyrfc`
(`src/anyrfc/parsing/imap_grammar.py` and `src/anyrfc/parsing/imap.py`).

The grammar rules and the result transformer are translated directly from the
Python source.  The backtracking PEG engine (the vendored `arpeggio` library),
the `base` result/error types, and the Python standard-library routines the
source calls (`str.strip`, `str.split`, `re.search`, `datetime.strptime`) are
not part of the source tree; they are modelled from the specification, and each
such definition is marked `Modelled from the spec:` in its doc comment.

Strings are modelled as `List Char`; a matcher consumes a prefix of its input
and returns the consumed span together with the remaining input, or `none`
when the rule does not match (PEG ordered choice, whitespace significant,
greedy repetition without backtracking into a repetition).
-/

namespace AnyRFC

/-- Modelled from the spec: Python whitespace (`str.strip` / `str.split` and
the regex class `\s`) over ASCII input. -/
def pyWs (c : Char) : Bool :=
  c = ' ' || c = '\t' || c = '\n' || c = '\r' || c = '\x0b' || c = '\x0c'

/-- Modelled from the spec: Python `str.strip()` — leading and trailing blank
bytes around the whole input are trimmed before matching. -/
def pyStrip (s : String) : String :=
  String.mk (((s.toList.dropWhile pyWs).reverse.dropWhile pyWs).reverse)

/-- Auxiliary accumulator for `pySplit`. -/
def pySplitAux : List Char → List Char → List String
  | [], acc => if acc = [] then [] else [String.mk acc.reverse]
  | c :: tl, acc =>
    if pyWs c then
      if acc = [] then pySplitAux tl []
      else String.mk acc.reverse :: pySplitAux tl []
    else pySplitAux tl (c :: acc)

/-- Modelled from the spec: Python `str.split()` with no argument — tokenize
on runs of whitespace, discarding empty tokens. -/
def pySplit (l : List Char) : List String := pySplitAux l []

/-- Numeric value of a decimal digit character. -/
def digitVal (c : Char) : Nat := c.toNat - 48

/-- Value of a decimal digit string, as Python `int()` computes it. -/
def natOfDigits (l : List Char) : Nat :=
  l.foldl (fun a c => a * 10 + digitVal c) 0

/- ## Parse result data model (the typed records built by the transformer) -/

/-- Timestamp produced by the modelled `datetime.strptime`: calendar fields
plus the UTC offset in seconds carried by the `%z` time-zone. -/
structure PyDateTime where
  year : Nat
  month : Nat
  day : Nat
  hour : Nat
  minute : Nat
  second : Nat
  tzSeconds : Int
  deriving DecidableEq

/-- An address dictionary as the Python code would store it (a `Dict[str,str]`). -/
abbrev AddressDict := List (String × String)

/-- The `IMAPEnvelope` dataclass: every field defaults to `None`. -/
structure IMAPEnvelope where
  date : Option String := none
  subject : Option String := none
  from_addr : Option (List AddressDict) := none
  sender : Option (List AddressDict) := none
  reply_to : Option (List AddressDict) := none
  «to» : Option (List AddressDict) := none
  cc : Option (List AddressDict) := none
  bcc : Option (List AddressDict) := none
  in_reply_to : Option String := none
  message_id : Option String := none
  deriving DecidableEq

/-- The `IMAPFetchResponse` dataclass: `message_number` is required, every
other field defaults to `None`. -/
structure IMAPFetchResponse where
  message_number : Nat
  uid : Option Nat := none
  flags : Option (List String) := none
  internal_date : Option PyDateTime := none
  envelope : Option IMAPEnvelope := none
  body_structure : Option Unit := none
  body : Option String := none
  deriving DecidableEq

/-- Modelled from the spec: the value carried by a successful `ParseResult`
(the `base` module is not in the source tree).  The generic entry point
produces a stringified parse tree; the rule-scoped entry points produce the
typed records. -/
inductive PValue where
  | str (s : String)
  | fetch (r : IMAPFetchResponse)
  | env (e : IMAPEnvelope)
  deriving DecidableEq

/-- Modelled from the spec: `ParseError` — message always present; byte
offset, line and column are best-effort and `none` means unknown. -/
structure ParseErrorS where
  message : String
  position : Option Nat := none
  line : Option Nat := none
  column : Option Nat := none
  deriving DecidableEq

/-- Modelled from the spec: `ParseResult` — tagged union of Success and
Failure (the `base` module is not in the source tree). -/
inductive ParseResult where
  | success (v : PValue)
  | failure (e : ParseErrorS)
  deriving DecidableEq

/-- Modelled from the spec: the exceptions that can be raised inside a parse
attempt before the entry point converts them — the engine's `NoMatch` and the
`ParseError` raised for an unknown rule name. -/
inductive PyExn where
  | noMatch (ruleName : String)
  | parseError (msg : String)
  deriving DecidableEq

/- ## The PEG matcher (engine modelled from the spec, rules from the source) -/

/-- A matcher consumes a prefix of the input: it returns the consumed span and
the rest, or `none` when the rule does not match at the head of the input. -/
def Matcher : Type := List Char → Option (List Char × List Char)

/-- Modelled from the spec: a plain string terminal of the PEG engine —
matches exactly the given characters at the head of the input (whitespace is
never implicitly skipped, `skipws=False`). -/
def strM (tok : List Char) : Matcher := fun l =>
  if tok.isPrefixOf l then some (tok, l.drop tok.length) else none

/-- String-literal terminal. -/
def lit (s : String) : Matcher := strM s.toList

/-- Modelled from the spec: sequencing of two grammar elements — the second
runs on what the first left over, and the consumed spans concatenate. -/
def mseq (a b : Matcher) : Matcher := fun l =>
  (a l).bind fun p₁ => (b p₁.2).map fun p₂ => (p₁.1 ++ p₂.1, p₂.2)

/-- Modelled from the spec: ordered choice — alternatives are tried in
declared order and the first match wins. -/
def mchoice (a b : Matcher) : Matcher := fun l =>
  match a l with
  | some p => some p
  | none => b l

/-- Modelled from the spec: `ZeroOrMore(sp, item)` — a greedy loop, each
iteration matching a single space then one item; a partial iteration is
rolled back and the loop stops.  The fuel argument bounds the number of
iterations; callers pass the input length, which the loop can never reach
since every iteration consumes at least the space. -/
def zomSp (m : Matcher) : Nat → List Char → List Char × List Char
  | 0, l => ([], l)
  | Nat.succ f, l =>
    match l with
    | ' ' :: rest =>
      match m rest with
      | some (c, r) =>
        let p := zomSp m f r
        (' ' :: (c ++ p.1), p.2)
      | none => ([], l)
    | _ => ([], l)

/-- The shared shape `'(', Optional(item, ZeroOrMore(sp, item)), ')'` used by
`paren_list`, `flag_list` and `fetch_msg_att`. -/
def listShape (item : Matcher) : Matcher := fun l =>
  match strM ['('] l with
  | some (_, r₁) =>
    let inner : List Char × List Char :=
      match item r₁ with
      | some (ca, ra) =>
        let q := zomSp item (ra.length + 1) ra
        (ca ++ q.1, q.2)
      | none => ([], r₁)
    match strM [')'] inner.2 with
    | some (_, r₃) => some ('(' :: (inner.1 ++ [')']), r₃)
    | none => none
  | none => none

/- ## Grammar rules, translated from `imap_grammar.py` -/

/-- Rule `sp`: a single space. -/
def spM : Matcher := lit " "

/-- Rule `crlf`: the regex `\r\n`. -/
def crlfM : Matcher := lit "\r\n"

/-- Rule `number`: the regex `\d+`, greedy. -/
def numberM : Matcher := fun l =>
  if l.takeWhile Char.isDigit = [] then none
  else some (l.takeWhile Char.isDigit, l.dropWhile Char.isDigit)

/-- Rule `nz_number`: the regex `[1-9]\d*`. -/
def nzNumberM : Matcher := fun l =>
  match l with
  | c :: rest =>
    if '1' ≤ c ∧ c ≤ '9' then
      some (c :: rest.takeWhile Char.isDigit, rest.dropWhile Char.isDigit)
    else none
  | [] => none

/-- Character class of rule `atom_char`: the regex
`[^\s\(\)\x7b%\*"\\\+\]]` — anything but whitespace and the listed
structural delimiters. -/
def atomCharP (c : Char) : Bool :=
  !(pyWs c || c = '(' || c = ')' || c = '\x7b' || c = '%' || c = '*' ||
    c = '"' || c = '\\' || c = '+' || c = ']')

/-- Rule `atom`: `OneOrMore(atom_char)`, a greedy nonempty run. -/
def atomM : Matcher := fun l =>
  let w := l.takeWhile atomCharP
  if w = [] then none else some (w, l.dropWhile atomCharP)

/-- Rule `quoted_char` iterated: the regex `[^"\\]|\\.|""` applied greedily by
`ZeroOrMore`, alternatives in declared order (`.` does not match a newline). -/
def qchars : List Char → List Char × List Char
  | [] => ([], [])
  | c :: rest =>
    if c ≠ '"' ∧ c ≠ '\\' then
      let p := qchars rest
      (c :: p.1, p.2)
    else if c = '\\' then
      match rest with
      | d :: rest2 =>
        if d ≠ '\n' then
          let p := qchars rest2
          (c :: d :: p.1, p.2)
        else ([], c :: rest)
      | [] => ([], [c])
    else
      match rest with
      | '"' :: rest2 =>
        let p := qchars rest2
        ('"' :: '"' :: p.1, p.2)
      | _ => ([], c :: rest)

/-- Rule `quoted_string`: `'"', ZeroOrMore(quoted_char), '"'`. -/
def quotedStringM : Matcher := fun l =>
  match l with
  | '"' :: rest =>
    let p := qchars rest
    match p.2 with
    | '"' :: r₂ => some ('"' :: (p.1 ++ ['"']), r₂)
    | _ => none
  | _ => none

/-- Modelled from the spec: the regex `.*` compiled with `multiline=True`
(the engine's dot-matches-all mode) — a greedy run over the entire remaining
input, including embedded CR/LF, with no backtracking.  Note the declared
literal length does not appear: the source's `literal` rule never uses it. -/
def dotAllM : Matcher := fun l => some (l, [])

/-- Rule `literal`: `'{', number, '}', crlf, _(".*", multiline=True)`. -/
def literalM : Matcher :=
  mseq (lit "\x7b") (mseq numberM (mseq (lit "\x7d") (mseq crlfM dotAllM)))

/-- Rule `string`: ordered choice `[quoted_string, literal, atom]`. -/
def stringM : Matcher := mchoice quotedStringM (mchoice literalM atomM)

/-- Rule `nstring`: ordered choice `[string, "NIL"]`. -/
def nstringM : Matcher := mchoice stringM (lit "NIL")

/-- ASCII letter test for the regex class `[A-Za-z]`. -/
def asciiAlpha (c : Char) : Bool :=
  ('A' ≤ c && c ≤ 'Z') || ('a' ≤ c && c ≤ 'z')

/-- Rule `flag_keyword`: the regex `\\[A-Za-z]+`. -/
def flagKeywordM : Matcher := fun l =>
  match l with
  | '\\' :: rest =>
    let w := rest.takeWhile asciiAlpha
    if w = [] then none else some ('\\' :: w, rest.dropWhile asciiAlpha)
  | _ => none

/-- Character class of the regex `[A-Za-z0-9_]`. -/
def flagExtChar (c : Char) : Bool := asciiAlpha c || c.isDigit || c = '_'

/-- Rule `flag_extension`: the regex `\$[A-Za-z0-9_]+`. -/
def flagExtM : Matcher := fun l =>
  match l with
  | '$' :: rest =>
    let w := rest.takeWhile flagExtChar
    if w = [] then none else some ('$' :: w, rest.dropWhile flagExtChar)
  | _ => none

/-- Rule `flag`: ordered choice `[flag_keyword, flag_extension, atom]`. -/
def flagM : Matcher := mchoice flagKeywordM (mchoice flagExtM atomM)

/-- Rule `flag_list`: `'(', Optional(flag, ZeroOrMore(sp, flag)), ')'`. -/
def flagListM : Matcher := listShape flagM

/-- Items of rule `paren_list` / `sp_list_item`: ordered choice
`[string, "NIL", paren_list]`, with the recursive `paren_list` reached
through the fuel-indexed body. -/
def plItemF : Nat → Matcher
  | 0 => fun _ => none
  | Nat.succ f => fun l =>
    mchoice stringM (mchoice (lit "NIL") (listShape (plItemF f))) l

/-- Rule `paren_list`: `'(', Optional([string,"NIL",paren_list],
ZeroOrMore(sp_list_item)), ')'`.  The nesting-depth fuel starts at the input
length, which the recursion can never exhaust since every nesting level
consumes an opening parenthesis. -/
def parenListM : Matcher := fun l => listShape (plItemF (l.length + 1)) l

/-- Rule `address`: `'(', nstring, sp, nstring, sp, nstring, sp, nstring, ')'`
(declared in the grammar module; no other rule references it). -/
def addressM : Matcher :=
  mseq (lit "(") (mseq nstringM (mseq spM (mseq nstringM (mseq spM
    (mseq nstringM (mseq spM (mseq nstringM (lit ")"))))))))

/-- Rule `address_list`: ordered choice `[paren_list, "NIL"]`. -/
def addressListM : Matcher := mchoice parenListM (lit "NIL")

/-- Rule `envelope`: the fixed sequence of ten slots — date, subject (both
`nstring`), six `address_list` slots, in-reply-to and message-id (`nstring`) —
separated by single spaces inside parentheses. -/
def envelopeM : Matcher :=
  mseq (lit "(")
    (mseq nstringM (mseq spM                 -- date
    (mseq nstringM (mseq spM                 -- subject
    (mseq addressListM (mseq spM             -- from
    (mseq addressListM (mseq spM             -- sender
    (mseq addressListM (mseq spM             -- reply-to
    (mseq addressListM (mseq spM             -- to
    (mseq addressListM (mseq spM             -- cc
    (mseq addressListM (mseq spM             -- bcc
    (mseq nstringM (mseq spM                 -- in-reply-to
    (mseq nstringM                           -- message-id
    (lit ")"))))))))))))))))))))

/-- Rule `uid_item`: `"UID", sp, nz_number`. -/
def uidItemM : Matcher := mseq (lit "UID") (mseq spM nzNumberM)

/-- Rule `flags_item`: `"FLAGS", sp, flag_list`. -/
def flagsItemM : Matcher := mseq (lit "FLAGS") (mseq spM flagListM)

/-- Rule `internaldate_item`: `"INTERNALDATE", sp, quoted_string`. -/
def internaldateItemM : Matcher :=
  mseq (lit "INTERNALDATE") (mseq spM quotedStringM)

/-- Rule `envelope_item`: `"ENVELOPE", sp, envelope`. -/
def envelopeItemM : Matcher := mseq (lit "ENVELOPE") (mseq spM envelopeM)

/-- Rule `bodystructure_item`: `"BODYSTRUCTURE", sp, paren_list`. -/
def bodystructureItemM : Matcher :=
  mseq (lit "BODYSTRUCTURE") (mseq spM parenListM)

/-- Rule `fetch_att`: ordered choice of the five attribute items. -/
def fetchAttM : Matcher :=
  mchoice uidItemM (mchoice flagsItemM (mchoice internaldateItemM
    (mchoice envelopeItemM bodystructureItemM)))

/-- Rule `fetch_msg_att`: `'(', Optional(fetch_att, ZeroOrMore(sp, fetch_att)), ')'`. -/
def fetchMsgAttM : Matcher := listShape fetchAttM

/-- Rule `fetch_response`: `'*', sp, number, sp, "FETCH", sp, fetch_msg_att`. -/
def fetchResponseM : Matcher :=
  mseq (lit "*") (mseq spM (mseq numberM (mseq spM
    (mseq (lit "FETCH") (mseq spM fetchMsgAttM)))))

/-- Rule `tag`: the regex `[A-Z0-9]+`. -/
def tagM : Matcher := fun l =>
  let p : Char → Bool := fun c => ('A' ≤ c && c ≤ 'Z') || c.isDigit
  let w := l.takeWhile p
  if w = [] then none else some (w, l.dropWhile p)

/-- Rule `resp_cond_state`: the regex `OK|NO|BAD`, alternatives in order. -/
def respCondStateM : Matcher := mchoice (lit "OK") (mchoice (lit "NO") (lit "BAD"))

/-- Rule `text`: the regex `.*` without dot-matches-all — a possibly empty
greedy run of characters other than a newline. -/
def textM : Matcher := fun l =>
  some (l.takeWhile (fun c => c ≠ '\n'), l.dropWhile (fun c => c ≠ '\n'))

/-- Rule `response_tagged`: `tag, sp, resp_cond_state, sp, text`. -/
def responseTaggedM : Matcher :=
  mseq tagM (mseq spM (mseq respCondStateM (mseq spM textM)))

/-- Rule `response_untagged`: `'*', sp, text`. -/
def responseUntaggedM : Matcher := mseq (lit "*") (mseq spM textM)

/-- Rule `response_continuation`: `'+', sp, text`. -/
def responseContinuationM : Matcher := mseq (lit "+") (mseq spM textM)

/-- Rule `response`: the top-level ordered choice
`[fetch_response, response_tagged, response_untagged, response_continuation]`. -/
def responseM : Matcher :=
  mchoice fetchResponseM (mchoice responseTaggedM
    (mchoice responseUntaggedM responseContinuationM))

/- ## The result transformer (`_transform_fetch_response` and friends) -/

/-- The anchored regex `^\* (\d+) FETCH` of `_transform_fetch_response`,
applied to the stringified tree: a match requires `* `, then a maximal
nonempty digit run (the captured group), then ` FETCH`. -/
def msgNumM (t : List Char) : Option (List Char) :=
  match t with
  | a :: b :: rest =>
    if a = '*' ∧ b = ' ' then
      if rest.takeWhile Char.isDigit = [] then none
      else if (" FETCH".toList).isPrefixOf (rest.dropWhile Char.isDigit) then
        some (rest.takeWhile Char.isDigit)
      else none
    else none
  | _ => none

/-- Modelled from the spec: `re.search(r'UID (\d+)', text)` — scan for the
leftmost position where `UID ` is followed by at least one digit; the
captured group is the maximal digit run there. -/
def uidSearch : List Char → Option (List Char)
  | [] => none
  | l@(_ :: tl) =>
    if ("UID ".toList).isPrefixOf l then
      let d := (l.drop 4).takeWhile Char.isDigit
      if d = [] then uidSearch tl else some d
    else uidSearch tl

/-- Largest index `j ≥ 1` at which the list holds a backslash. -/
def lastSlashIdx (run : List Char) : Option Nat :=
  ((List.range run.length).filter
    (fun j => decide (1 ≤ j) && (run.getD j ' ' == '\\'))).getLast?

/-- Modelled from the spec: `re.search(r'FLAGS \\(([^)]+)\\)', text)` — in
this raw-string pattern `\\(` is a literal backslash followed by a group
opening, so a match needs the text `FLAGS \`, then the group: a nonempty run
of non-`)` characters whose greedy extent backtracks to end at the last
backslash of the run.  `group(1)` therefore ends in that backslash. -/
def flagsSearch : List Char → Option (List Char)
  | [] => none
  | l@(_ :: tl) =>
    if ("FLAGS \\".toList).isPrefixOf l then
      let run := (l.drop 7).takeWhile (fun c => c ≠ ')')
      match lastSlashIdx run with
      | some j => some (run.take (j + 1))
      | none => flagsSearch tl
    else flagsSearch tl

/-- Modelled from the spec: `re.search(r'INTERNALDATE "([^"]+)"', text)` —
scan for `INTERNALDATE "`, then a nonempty run of non-quote characters
followed by a closing quote; the captured group is that run. -/
def dateSearch : List Char → Option (List Char)
  | [] => none
  | l@(_ :: tl) =>
    if ("INTERNALDATE \"".toList).isPrefixOf l then
      let after := l.drop 14
      let run := after.takeWhile (fun c => c ≠ '"')
      if run ≠ [] ∧ after.dropWhile (fun c => c ≠ '"') ≠ [] then some run
      else dateSearch tl
    else dateSearch tl

/- ## Modelled `datetime.strptime(date_str, "%d-%b-%Y %H:%M:%S %z")` -/

/-- Day directive `%d`: one or two digits with value 1–31 (the pattern
`3[01]|[12]\d|0[1-9]|[1-9]`); a longer digit run cannot be split because the
following character must be a separator, never a digit. -/
def parseDay : List Char → Option (Nat × List Char)
  | a :: b :: rest =>
    if a.isDigit && b.isDigit then
      let v := digitVal a * 10 + digitVal b
      if 1 ≤ v ∧ v ≤ 31 then some (v, rest) else none
    else if a.isDigit then
      if 1 ≤ digitVal a then some (digitVal a, b :: rest) else none
    else none
  | [a] => if a.isDigit && decide (1 ≤ digitVal a) then some (digitVal a, []) else none
  | [] => none

/-- Two-digit-or-one-digit numeric directive with an upper bound, as `%H`
(max 23), `%M` (max 59) and `%S` (max 61) are compiled. -/
def parse2Max (max : Nat) : List Char → Option (Nat × List Char)
  | a :: b :: rest =>
    if a.isDigit && b.isDigit then
      let v := digitVal a * 10 + digitVal b
      if v ≤ max then some (v, rest) else none
    else if a.isDigit then some (digitVal a, b :: rest)
    else none
  | [a] => if a.isDigit then some (digitVal a, []) else none
  | [] => none

/-- Month directive `%b`: a case-insensitive three-letter English
abbreviation. -/
def monthAbbr (a b c : Char) : Option Nat :=
  match a.toLower, b.toLower, c.toLower with
  | 'j', 'a', 'n' => some 1
  | 'f', 'e', 'b' => some 2
  | 'm', 'a', 'r' => some 3
  | 'a', 'p', 'r' => some 4
  | 'm', 'a', 'y' => some 5
  | 'j', 'u', 'n' => some 6
  | 'j', 'u', 'l' => some 7
  | 'a', 'u', 'g' => some 8
  | 's', 'e', 'p' => some 9
  | 'o', 'c', 't' => some 10
  | 'n', 'o', 'v' => some 11
  | 'd', 'e', 'c' => some 12
  | _, _, _ => none

/-- Year directive `%Y`: exactly four digits. -/
def parseYear4 : List Char → Option (Nat × List Char)
  | a :: b :: c :: d :: rest =>
    if a.isDigit && b.isDigit && c.isDigit && d.isDigit then
      some (natOfDigits [a, b, c, d], rest)
    else none
  | _ => none

/-- Optional fractional part `(\.\d{1,6})?` of the `%z` offset: consume a dot
followed by one to six digits, or nothing. -/
def consFrac (r : List Char) : List Char :=
  match r with
  | '.' :: t =>
    let ds := t.takeWhile Char.isDigit
    if ds = [] then r else t.drop (min ds.length 6)
  | _ => r

/-- Optional seconds of the `%z` offset: `(:?[0-5]\d(\.\d{1,6})?)?` — an
optional colon then two digits the first of which is 0–5; if they are not
there the group matches empty and consumes nothing. -/
def parseTZsec (l : List Char) : Nat × List Char :=
  match l with
  | ':' :: s1 :: s2 :: r =>
    if ('0' ≤ s1 ∧ s1 ≤ '5') ∧ s2.isDigit then
      (digitVal s1 * 10 + digitVal s2, consFrac r)
    else (0, l)
  | s1 :: s2 :: r =>
    if ('0' ≤ s1 ∧ s1 ≤ '5') ∧ s2.isDigit then
      (digitVal s1 * 10 + digitVal s2, consFrac r)
    else (0, l)
  | _ => (0, l)

/-- Time-zone directive `%z`: `[+-]\d\d:?[0-5]\d(:?[0-5]\d(\.\d{1,6})?)?` or
a literal uppercase `Z`; the resulting offset must be strictly less than 24
hours in magnitude or the datetime constructor raises. -/
def parseTZ : List Char → Option (Int × List Char)
  | 'Z' :: rest => some (0, rest)
  | s :: rest =>
    if s = '+' ∨ s = '-' then
      match rest with
      | h1 :: h2 :: rest2 =>
        if h1.isDigit && h2.isDigit then
          let hh := digitVal h1 * 10 + digitVal h2
          let rest3 := match rest2 with | ':' :: r => r | _ => rest2
          match rest3 with
          | m1 :: m2 :: rest4 =>
            if ('0' ≤ m1 ∧ m1 ≤ '5') ∧ m2.isDigit then
              let mm := digitVal m1 * 10 + digitVal m2
              let p := parseTZsec rest4
              let total : Nat := hh * 3600 + mm * 60 + p.1
              if total < 86400 then
                some (if s = '-' then -(Int.ofNat total) else Int.ofNat total, p.2)
              else none
            else none
          | _ => none
        else none
      | _ => none
    else none
  | [] => none

/-- Gregorian leap-year rule, as `datetime` validates the day of month. -/
def isLeap (y : Nat) : Bool := (y % 4 == 0 && y % 100 != 0) || y % 400 == 0

/-- Number of days in a month. -/
def daysInMonth (y m : Nat) : Nat :=
  if m = 2 then (if isLeap y then 29 else 28)
  else if m = 4 ∨ m = 6 ∨ m = 9 ∨ m = 11 then 30
  else 31

/-- Modelled from the spec: `datetime.strptime(s, "%d-%b-%Y %H:%M:%S %z")` —
the fixed layout `DD-Mon-YYYY HH:MM:SS ±ZZZZ`; the whole string must be
consumed, and the datetime constructor additionally validates the day against
the month, the year range, and that seconds are below 60. -/
def parseIMAPDate (s : List Char) : Option PyDateTime :=
  match parseDay s with
  | none => none
  | some (d, r1) =>
    match r1 with
    | '-' :: ma :: mb :: mc :: '-' :: r2 =>
      match monthAbbr ma mb mc with
      | none => none
      | some m =>
        match parseYear4 r2 with
        | none => none
        | some (y, r3) =>
          match r3 with
          | ' ' :: r4 =>
            match parse2Max 23 r4 with
            | none => none
            | some (hh, r5) =>
              match r5 with
              | ':' :: r6 =>
                match parse2Max 59 r6 with
                | none => none
                | some (mi, r7) =>
                  match r7 with
                  | ':' :: r8 =>
                    match parse2Max 61 r8 with
                    | none => none
                    | some (se, r9) =>
                      match r9 with
                      | ' ' :: r10 =>
                        match parseTZ r10 with
                        | none => none
                        | some (off, r11) =>
                          if r11 = [] ∧ 1 ≤ y ∧ d ≤ daysInMonth y m ∧ se ≤ 59 then
                            some ⟨y, m, d, hh, mi, se, off⟩
                          else none
                      | _ => none
                  | _ => none
              | _ => none
          | _ => none
    | _ => none

/- ## Tree-to-record transformation -/

/-- Modelled from the spec: the stringified parse tree the transformer
pattern-searches — the serialized text form of a successful match, i.e. the
span of input the rule consumed. -/
def serializeTree (consumed : List Char) : String := String.mk consumed

/-- Translation of `_transform_fetch_response`: regex extractions over the
stringified tree; a date that fails the fixed layout is silently dropped. -/
def transformFetch (tree : List Char) : IMAPFetchResponse :=
  { message_number :=
      match msgNumM tree with
      | some d => natOfDigits d
      | none => 0
    uid := (uidSearch tree).map natOfDigits
    flags := (flagsSearch tree).map pySplit
    internal_date := (dateSearch tree).bind parseIMAPDate }

/-- Translation of `_transform_envelope`: returns a fresh `IMAPEnvelope()`
with every field left at its default. -/
def transformEnvelope (_tree : List Char) : IMAPEnvelope := {}

/- ## Entry points (`IMAPParser.parse`, `parse_partial` and the helpers) -/

/-- Modelled from the spec: the diagnostic message of the engine's `NoMatch`
for a rule (the engine is not in the source tree; the message is always
populated). -/
def noMatchMessage (ruleName : String) : String :=
  "Expected " ++ ruleName ++ " not matched"

/-- Body of the `try:` block of `parse_partial`: dispatch on the rule name,
raising `ParseError` for an unknown name and `NoMatch` when the anchored
sub-grammar does not match the stripped text. -/
def parsePartialAttempt (text : String) (rule : String) : Except PyExn PValue :=
  if rule = "fetch_response" then
    match fetchResponseM (pyStrip text).toList with
    | some (c, _) => .ok (.fetch (transformFetch c))
    | none => .error (.noMatch "fetch_response")
  else if rule = "envelope" then
    match envelopeM (pyStrip text).toList with
    | some (c, _) => .ok (.env (transformEnvelope c))
    | none => .error (.noMatch "envelope")
  else .error (.parseError ("Unknown rule: " ++ rule))

/-- The `except` clauses shared by `parse` and `parse_partial`: a `NoMatch`
becomes a `ParseError` with the engine's message; any other exception is
wrapped as `Unexpected parsing error: …`.  No exception propagates. -/
def excToFailure : PyExn → ParseResult
  | .noMatch rn => .failure { message := noMatchMessage rn }
  | .parseError m => .failure { message := "Unexpected parsing error: " ++ m }

/-- Translation of `IMAPParser.parse_partial`. -/
def parsePartialRule (text : String) (rule : String) : ParseResult :=
  match parsePartialAttempt text rule with
  | .ok v => .success v
  | .error e => excToFailure e

/-- Body of the `try:` block of `parse` when no rule is given: run the
top-level `response` grammar on the stripped text and stringify the tree. -/
def parseTopAttempt (text : String) : Except PyExn PValue :=
  match responseM (pyStrip text).toList with
  | some (c, _) => .ok (.str (serializeTree c))
  | none => .error (.noMatch "response")

/-- Translation of `IMAPParser.parse(text, rule=None)`: Python's `if rule:`
treats both `None` and the empty string as "no rule given". -/
def IMAPParser_parse (text : String) (rule : Option String) : ParseResult :=
  match rule with
  | some r =>
    if r ≠ "" then parsePartialRule text r
    else
      match parseTopAttempt text with
      | .ok v => .success v
      | .error e => excToFailure e
  | none =>
    match parseTopAttempt text with
    | .ok v => .success v
    | .error e => excToFailure e

/-- Translation of the module-level convenience `parse_fetch_response`. -/
def parse_fetch_response (text : String) : ParseResult :=
  parsePartialRule text "fetch_response"

/-- Translation of the module-level convenience `parse_envelope`. -/
def parse_envelope (text : String) : ParseResult :=
  parsePartialRule text "envelope"

/- ## Inversion and support lemmas -/

theorem isPrefixOf_iff_ex (p : List Char) : ∀ l : List Char,
    p.isPrefixOf l = true ↔ ∃ t, l = p ++ t := by
  induction p with
  | nil => intro l; simp [List.isPrefixOf]
  | cons a as ih =>
    intro l
    cases l with
    | nil => simp [List.isPrefixOf]
    | cons b bs =>
      simp only [List.isPrefixOf, Bool.and_eq_true, beq_iff_eq, ih bs]
      constructor
      · rintro ⟨rfl, t, rfl⟩
        exact ⟨t, rfl⟩
      · rintro ⟨t, h⟩
        injection h with h1 h2
        exact ⟨h1.symm, t, h2⟩

theorem drop_length_append (d e : List Char) : (d ++ e).drop d.length = e := by
  induction d with
  | nil => simp
  | cons a as ih => simp [ih]

theorem strM_eq_some {tok l c r : List Char} :
    strM tok l = some (c, r) ↔ c = tok ∧ l = tok ++ r := by
  constructor
  · intro h
    unfold strM at h
    by_cases hp : tok.isPrefixOf l = true
    · rw [if_pos hp] at h
      obtain ⟨t, rfl⟩ := (isPrefixOf_iff_ex tok _).mp hp
      rw [drop_length_append] at h
      injection h with h
      injection h with h1 h2
      exact ⟨h1.symm, by rw [h2]⟩
    · rw [if_neg hp] at h
      exact absurd h (by simp)
  · rintro ⟨rfl, rfl⟩
    unfold strM
    rw [if_pos ((isPrefixOf_iff_ex c (c ++ r)).mpr ⟨r, rfl⟩), drop_length_append]

theorem mseq_eq_some {a b : Matcher} {l c r : List Char} :
    mseq a b l = some (c, r) ↔
      ∃ c₁ r₁ c₂, a l = some (c₁, r₁) ∧ b r₁ = some (c₂, r) ∧ c = c₁ ++ c₂ := by
  unfold mseq
  constructor
  · intro h
    rw [Option.bind_eq_some] at h
    obtain ⟨⟨c₁, r₁⟩, ha, h⟩ := h
    rw [Option.map_eq_some'] at h
    obtain ⟨⟨c₂, r₂⟩, hb, hg⟩ := h
    cases hg
    exact ⟨c₁, r₁, c₂, ha, hb, rfl⟩
  · rintro ⟨c₁, r₁, c₂, ha, hb, rfl⟩
    rw [Option.bind_eq_some]
    refine ⟨(c₁, r₁), ha, ?_⟩
    rw [Option.map_eq_some']
    exact ⟨(c₂, r), hb, rfl⟩

theorem numberM_eq_some {l c r : List Char} :
    numberM l = some (c, r) ↔
      c = l.takeWhile Char.isDigit ∧ c ≠ [] ∧ r = l.dropWhile Char.isDigit := by
  unfold numberM
  by_cases h : l.takeWhile Char.isDigit = []
  · rw [if_pos h]
    constructor
    · intro hh
      exact absurd hh (by simp)
    · rintro ⟨rfl, hne, -⟩
      exact absurd h hne
  · rw [if_neg h]
    constructor
    · intro hh
      injection hh with hh
      injection hh with h1 h2
      exact ⟨h1.symm, h1 ▸ h, h2.symm⟩
    · rintro ⟨rfl, -, rfl⟩
      rfl

theorem takeWhile_sat {p : Char → Bool} : ∀ {l : List Char} {x : Char},
    x ∈ l.takeWhile p → p x = true := by
  intro l
  induction l with
  | nil => intro x h; simp [List.takeWhile] at h
  | cons a as ih =>
    intro x h
    rw [List.takeWhile] at h
    cases hp : p a with
    | true => rw [hp] at h; rcases List.mem_cons.mp h with rfl | h2
              · exact hp
              · exact ih h2
    | false => rw [hp] at h; simp at h

theorem takeWhile_append_all {p : Char → Bool} {d : List Char}
    (h : ∀ x ∈ d, p x = true) (e : List Char) :
    (d ++ e).takeWhile p = d ++ e.takeWhile p := by
  induction d with
  | nil => simp
  | cons a as ih =>
    have ha : p a = true := h a (List.mem_cons_self a as)
    have ih' := ih (fun x hx => h x (List.mem_cons_of_mem a hx))
    simp [List.takeWhile_cons, ha, ih']

theorem dropWhile_append_all {p : Char → Bool} {d : List Char}
    (h : ∀ x ∈ d, p x = true) (e : List Char) :
    (d ++ e).dropWhile p = e.dropWhile p := by
  induction d with
  | nil => simp
  | cons a as ih =>
    have ha : p a = true := h a (List.mem_cons_self a as)
    have ih' := ih (fun x hx => h x (List.mem_cons_of_mem a hx))
    simp [List.dropWhile_cons, ha, ih']

theorem flagsSearch_of_no_bslash : ∀ l : List Char, '\\' ∉ l → flagsSearch l = none := by
  intro l
  induction l with
  | nil => intro _; rfl
  | cons x tl ih =>
    intro h
    have hx : '\\' ∉ tl := fun hm => h (List.mem_cons_of_mem x hm)
    cases hp : ("FLAGS \\".toList).isPrefixOf (x :: tl) with
    | true =>
      obtain ⟨t, ht⟩ := (isPrefixOf_iff_ex _ _).mp hp
      exact absurd (ht ▸ (List.mem_append.mpr (Or.inl (by decide)))) h
    | false =>
      simp only [flagsSearch, hp, Bool.false_eq_true, if_false]
      exact ih hx

theorem string_append_ne_empty (s t : String) (h : s ≠ "") : s ++ t ≠ "" := by
  intro he
  apply h
  cases s with
  | mk a =>
    cases t with
    | mk b =>
      have : a ++ b = [] := congrArg String.data he
      have ha : a = [] := (List.append_eq_nil.mp this).1
      rw [ha]

theorem string_append_assoc (s t u : String) : s ++ t ++ u = s ++ (t ++ u) := by
  cases s with
  | mk a =>
    cases t with
    | mk b =>
      cases u with
      | mk c =>
        show String.mk ((a ++ b) ++ c) = String.mk (a ++ (b ++ c))
        rw [List.append_assoc]

/-- Every outcome of `parsePartialRule` is a `ParseResult`, and on failure
the error message is populated. -/
theorem parsePartialRule_shape (text rule : String) :
    (∃ v, parsePartialRule text rule = .success v) ∨
    (∃ e, parsePartialRule text rule = .failure e ∧ e.message ≠ "") := by
  unfold parsePartialRule
  cases h : parsePartialAttempt text rule with
  | ok v => exact Or.inl ⟨v, rfl⟩
  | error e =>
    refine Or.inr ?_
    cases e with
    | noMatch rn =>
      exact ⟨_, rfl, string_append_ne_empty _ _ (string_append_ne_empty _ _ (by decide))⟩
    | parseError m =>
      exact ⟨_, rfl, string_append_ne_empty _ _ (by decide)⟩

/-- Every outcome of the rule-omitted top-level parse is a `ParseResult`,
and on failure the error message is populated. -/
theorem parseTop_shape (text : String) :
    (∃ v, (match parseTopAttempt text with
           | .ok v => ParseResult.success v
           | .error e => excToFailure e) = .success v) ∨
    (∃ e, (match parseTopAttempt text with
           | .ok v => ParseResult.success v
           | .error e => excToFailure e) = .failure e ∧ e.message ≠ "") := by
  cases h : parseTopAttempt text with
  | ok v => exact Or.inl ⟨v, rfl⟩
  | error e =>
    refine Or.inr ?_
    cases e with
    | noMatch rn =>
      exact ⟨{ message := noMatchMessage rn }, rfl,
        string_append_ne_empty _ _ (string_append_ne_empty _ _ (by decide))⟩
    | parseError m =>
      exact ⟨{ message := "Unexpected parsing error: " ++ m }, rfl,
        string_append_ne_empty _ _ (by decide)⟩

/- ## Claim theorems -/

/-- C1 — the spec's end-to-end property for
`* 1 FETCH (UID 123 FLAGS (\Seen) INTERNALDATE "16-Aug-2025 14:06:39 +0000")`:
the parse succeeds with `message_number = 1`, `uid = 123` and
`internal_date = 2025-08-16T14:06:39+00:00` exactly as claimed, but the flags
field is left `None` instead of `{"\Seen"}`: the transformer's raw-string
pattern `FLAGS \\(([^)]+)\\)` double-escapes the parentheses, so it looks for
literal backslashes after `FLAGS ` and never matches the grammar's
`FLAGS (\Seen)` syntax — evaluating the code at the spec's own test vector
exhibits the divergence. -/
theorem fetch_end_to_end_flags_dropped :
    parse_fetch_response
        "* 1 FETCH (UID 123 FLAGS (\\Seen) INTERNALDATE \"16-Aug-2025 14:06:39 +0000\")" =
      .success (.fetch { message_number := 1, uid := some 123, flags := none,
                         internal_date := some ⟨2025, 8, 16, 14, 6, 39, 0⟩ }) ∧
    (none : Option (List String)) ≠ some ["\\Seen"] := by
  exact ⟨by decide, by decide⟩

/-- C2 — the `literal` rule does not consume the declared number of bytes:
after `{n}` CRLF it matches a greedy `.*` run over the entire remaining
input.  With the declared length 2 it consumes all five bytes `AB\r\nC`; with
the declared length 5 it succeeds on an input holding only the two bytes
`AB`; on the claim's own input `{5}\r\nAB\r\nC` the five bytes are consumed
only because the input ends there, not because of the declared length. -/
theorem literal_length_ignored :
    literalM ("\x7b2\x7d\r\nAB\r\nC".toList) = some ("\x7b2\x7d\r\nAB\r\nC".toList, []) ∧
    literalM ("\x7b5\x7d\r\nAB".toList) = some ("\x7b5\x7d\r\nAB".toList, []) ∧
    literalM ("\x7b5\x7d\r\nAB\r\nC".toList) = some ("\x7b5\x7d\r\nAB\r\nC".toList, []) := by
  exact ⟨by decide, by decide, by decide⟩

/-- C3 counterexample — `* 1 FETCH (FLAGS ())` parses to Success, but the
flags field is `None` (absent), not the empty set the claim requires. -/
theorem flags_empty_set_ce :
    parse_fetch_response "* 1 FETCH (FLAGS ())" =
      .success (.fetch { message_number := 1 }) ∧
    ({ message_number := 1 } : IMAPFetchResponse).flags ≠ some [] := by
  exact ⟨by decide, by decide⟩

/-- C4 counterexample — `* 0 FETCH ()` matches the grammar (`number` is
`\d+`, which admits `0`), parses to Success, and yields
`message_number = 0`, which is not a positive integer. -/
theorem msg_number_zero_ce :
    parse_fetch_response "* 0 FETCH ()" = .success (.fetch { message_number := 0 }) ∧
    ¬ 0 < ({ message_number := 0 } : IMAPFetchResponse).message_number := by
  exact ⟨by decide, by decide⟩

/-- C5 counterexample — an envelope whose date slot is the quoted string
`"A"` parses to Success, but the resulting record is the empty
`IMAPEnvelope()`: the date field is `None`, not `"A"`, so the positional
slots are not mapped to the record's fields. -/
theorem envelope_slot_value_dropped_ce :
    parse_envelope "(\"A\" NIL NIL NIL NIL NIL NIL NIL NIL NIL)" =
      .success (.env {}) ∧
    ({} : IMAPEnvelope).date ≠ some "A" := by
  exact ⟨by decide, by decide⟩

/-- C6 — for every input text and every rule argument, `parse` and
`parse_partial` return a `ParseResult` by construction (every internal fault
of the attempt is an `Except` value converted by the entry point's handler),
and whenever the result is a Failure its `ParseError` message is nonempty. -/
theorem parse_no_raise (text : String) (rule : Option String) :
    ((∃ v, IMAPParser_parse text rule = .success v) ∨
     (∃ e, IMAPParser_parse text rule = .failure e ∧ e.message ≠ "")) ∧
    ∀ r : String,
      (∃ v, parsePartialRule text r = .success v) ∨
      (∃ e, parsePartialRule text r = .failure e ∧ e.message ≠ "") := by
  constructor
  · cases rule with
    | none => exact parseTop_shape text
    | some r =>
      have hred : IMAPParser_parse text (some r) =
          if r ≠ "" then parsePartialRule text r
          else
            match parseTopAttempt text with
            | .ok v => ParseResult.success v
            | .error e => excToFailure e := rfl
      by_cases hr : r = ""
      · rw [hred, if_neg (by simp [hr])]
        exact parseTop_shape text
      · rw [hred, if_pos hr]
        exact parsePartialRule_shape text r
  · intro r
    exact parsePartialRule_shape text r

/-- C7 counterexample — the empty string is an undefined rule name, yet
Python's `if rule:` treats it as falsy and routes the call to the top-level
grammar, so `parse(text, rule="")` can return Success. -/
theorem empty_rule_name_success_ce :
    IMAPParser_parse "+ x" (some "") = .success (.str "+ x") := by
  decide

/-- C7 (amended) — for every nonempty rule name other than the two defined
rules, `parse(text, rule)` returns a Failure whose message reports the
unknown rule, wrapped by the generic handler as
`Unexpected parsing error: Unknown rule: <name>`; no Success is possible. -/
theorem unknown_rule_failure (text rule : String)
    (h0 : rule ≠ "") (h1 : rule ≠ "fetch_response") (h2 : rule ≠ "envelope") :
    IMAPParser_parse text (some rule) =
      .failure { message := "Unexpected parsing error: Unknown rule: " ++ rule } := by
  have hred : IMAPParser_parse text (some rule) =
      if rule ≠ "" then parsePartialRule text rule
      else
        match parseTopAttempt text with
        | .ok v => ParseResult.success v
        | .error e => excToFailure e := rfl
  rw [hred, if_pos h0]
  unfold parsePartialRule parsePartialAttempt
  rw [if_neg h1, if_neg h2]
  show ParseResult.failure
      { message := "Unexpected parsing error: " ++ ("Unknown rule: " ++ rule) } = _
  rw [← string_append_assoc]
  rw [show ("Unexpected parsing error: " ++ "Unknown rule: " : String) =
      "Unexpected parsing error: Unknown rule: " from by decide]

/-- Witness for `unknown_rule_failure` at the concrete rule name `bogus`. -/
theorem unknown_rule_failure_w :
    IMAPParser_parse "x" (some "bogus") =
      .failure { message := "Unexpected parsing error: Unknown rule: bogus" } := by
  exact unknown_rule_failure "x" "bogus" (by decide) (by decide) (by decide)

/-- C8 — whenever the fetch-response grammar matches the (already stripped)
input, the parse returns Success, and if the extracted `INTERNALDATE` quoted
string fails the fixed layout `DD-Mon-YYYY HH:MM:SS ±ZZZZ`, the
`internal_date` field of the record is left unset rather than failing the
whole record. -/
theorem internaldate_mismatch_unset (text : String) (c r s : List Char)
    (hs : pyStrip text = text)
    (hm : fetchResponseM text.toList = some (c, r))
    (hd : dateSearch c = some s)
    (hp : parseIMAPDate s = none) :
    parse_fetch_response text = .success (.fetch (transformFetch c)) ∧
    (transformFetch c).internal_date = none := by
  constructor
  · unfold parse_fetch_response parsePartialRule parsePartialAttempt
    rw [if_pos rfl, hs, hm]
  · show (dateSearch c).bind parseIMAPDate = none
    rw [hd]
    exact hp

/-- Witness for `internaldate_mismatch_unset` at
`* 1 FETCH (INTERNALDATE "x")`, whose date string `x` fails the layout. -/
theorem internaldate_mismatch_unset_w :
    parse_fetch_response "* 1 FETCH (INTERNALDATE \"x\")" =
      .success (.fetch (transformFetch ("* 1 FETCH (INTERNALDATE \"x\")".toList))) ∧
    (transformFetch ("* 1 FETCH (INTERNALDATE \"x\")".toList)).internal_date = none := by
  exact internaldate_mismatch_unset "* 1 FETCH (INTERNALDATE \"x\")"
    ("* 1 FETCH (INTERNALDATE \"x\")".toList) [] ['x']
    (by decide) (by decide) (by decide) (by decide)

/-- C9 — with the rule argument omitted, the top-level alternation tries
`fetch_response` first: whenever the fetch-response rule matches the stripped
text, `parse` returns exactly the fetch-response interpretation (the
stringified fetch-response tree), not the untagged-status one. -/
theorem ordered_choice_fetch_first (text : String) (c r : List Char)
    (hm : fetchResponseM (pyStrip text).toList = some (c, r)) :
    IMAPParser_parse text none = .success (.str (serializeTree c)) := by
  have hred : IMAPParser_parse text none =
      match parseTopAttempt text with
      | .ok v => ParseResult.success v
      | .error e => excToFailure e := rfl
  rw [hred]
  unfold parseTopAttempt responseM mchoice
  rw [hm]

/-- Witness for `ordered_choice_fetch_first`: `* 3 FETCH (UID 7)` is matched
by the fetch-response alternative (it would also match `response_untagged`,
which is declared later and therefore never reached). -/
theorem ordered_choice_fetch_first_w :
    IMAPParser_parse "* 3 FETCH (UID 7)" none = .success (.str "* 3 FETCH (UID 7)") := by
  exact ordered_choice_fetch_first "* 3 FETCH (UID 7)"
    ("* 3 FETCH (UID 7)".toList) [] (by decide)

/-- C10 — the rule-omitted entry point only ever returns a stringified parse
tree (a plain string); the typed `IMAPFetchResponse` and `IMAPEnvelope`
records are produced only by the rule-scoped entry points
`parse_fetch_response` and `parse_envelope` respectively. -/
theorem dispatch_result_shapes :
    (∀ (text : String) (v : PValue),
        IMAPParser_parse text none = .success v → ∃ s, v = .str s) ∧
    (∀ (text : String) (v : PValue),
        parse_fetch_response text = .success v → ∃ fr, v = .fetch fr) ∧
    (∀ (text : String) (v : PValue),
        parse_envelope text = .success v → ∃ ev, v = .env ev) := by
  refine ⟨?_, ?_, ?_⟩
  · intro text v h
    have hred : IMAPParser_parse text none =
        match parseTopAttempt text with
        | .ok w => ParseResult.success w
        | .error e => excToFailure e := rfl
    rw [hred] at h
    unfold parseTopAttempt at h
    cases hq : responseM (pyStrip text).toList with
    | some p =>
      obtain ⟨cc, rr⟩ := p
      rw [hq] at h
      injection h with h
      exact ⟨serializeTree cc, h.symm⟩
    | none =>
      rw [hq] at h
      exact absurd h (by simp [excToFailure])
  · intro text v h
    unfold parse_fetch_response parsePartialRule parsePartialAttempt at h
    rw [if_pos rfl] at h
    cases hq : fetchResponseM (pyStrip text).toList with
    | some p =>
      obtain ⟨cc, rr⟩ := p
      rw [hq] at h
      injection h with h
      exact ⟨transformFetch cc, h.symm⟩
    | none =>
      rw [hq] at h
      exact absurd h (by simp [excToFailure])
  · intro text v h
    unfold parse_envelope parsePartialRule parsePartialAttempt at h
    rw [if_neg (by decide), if_pos rfl] at h
    cases hq : envelopeM (pyStrip text).toList with
    | some p =>
      obtain ⟨cc, rr⟩ := p
      rw [hq] at h
      injection h with h
      exact ⟨transformEnvelope cc, h.symm⟩
    | none =>
      rw [hq] at h
      exact absurd h (by simp [excToFailure])

/-- Witness for `dispatch_result_shapes`: the continuation line `+ a`
succeeds through the rule-omitted entry point with a string value. -/
theorem dispatch_result_shapes_w : ∃ s, PValue.str "+ a" = PValue.str s := by
  exact dispatch_result_shapes.1 "+ a" (.str "+ a") (by decide)

/-- C3 (amended) — whenever the fetch-response grammar matches the stripped
input and the matched span contains no backslash — in particular whenever
the only FLAGS attribute is the explicitly empty list `FLAGS ()` — the parse
returns Success but the flags field is left absent (`None`), never an empty
set: the transformer's flag pattern requires a literal backslash after
`FLAGS `, and its group needs at least one character, so an explicit `()`
cannot produce an empty list. -/
theorem flags_empty_yields_absent (text : String) (c r : List Char)
    (hs : pyStrip text = text)
    (hm : fetchResponseM text.toList = some (c, r))
    (hb : '\\' ∉ c) :
    parse_fetch_response text = .success (.fetch (transformFetch c)) ∧
    (transformFetch c).flags = none := by
  constructor
  · unfold parse_fetch_response parsePartialRule parsePartialAttempt
    rw [if_pos rfl, hs, hm]
  · show (flagsSearch c).map pySplit = none
    rw [flagsSearch_of_no_bslash c hb]
    rfl

/-- Witness for `flags_empty_yields_absent` at `* 1 FETCH (FLAGS ())`. -/
theorem flags_empty_yields_absent_w :
    parse_fetch_response "* 1 FETCH (FLAGS ())" =
      .success (.fetch (transformFetch ("* 1 FETCH (FLAGS ())".toList))) ∧
    (transformFetch ("* 1 FETCH (FLAGS ())".toList)).flags = none := by
  exact flags_empty_yields_absent "* 1 FETCH (FLAGS ())"
    ("* 1 FETCH (FLAGS ())".toList) [] (by decide) (by decide) (by decide)

/-- C5 (amended) — for every input accepted by the envelope rule, parsing
with the envelope rule returns Success, but the result is always the empty
`IMAPEnvelope` record: `_transform_envelope` discards the ten positional
slots entirely, so a NIL slot and a populated slot alike map to an unset
field (and never cause an error). -/
theorem envelope_discards_slots (text : String) (c r : List Char)
    (hm : envelopeM (pyStrip text).toList = some (c, r)) :
    parse_envelope text = .success (.env {}) := by
  unfold parse_envelope parsePartialRule parsePartialAttempt
  rw [if_neg (by decide), if_pos rfl, hm]
  rfl

/-- Witness for `envelope_discards_slots` at the all-NIL envelope. -/
theorem envelope_discards_slots_w :
    parse_envelope "(NIL NIL NIL NIL NIL NIL NIL NIL NIL NIL)" = .success (.env {}) := by
  exact envelope_discards_slots "(NIL NIL NIL NIL NIL NIL NIL NIL NIL NIL)"
    ("(NIL NIL NIL NIL NIL NIL NIL NIL NIL NIL)".toList) [] (by decide)

/-- C4 (amended) — for every (already stripped) input matched by the
fetch-response grammar, `parse_fetch_response` returns Success and the
returned `message_number` equals the integer value of the digit run
following `* ` at the head of the input; it need not be positive, since the
grammar's `number` rule is `\d+` and admits `0`. -/
theorem msg_number_eq_head_digits (text : String) (c r : List Char)
    (hs : pyStrip text = text)
    (hm : fetchResponseM text.toList = some (c, r)) :
    parse_fetch_response text = .success (.fetch (transformFetch c)) ∧
    (transformFetch c).message_number =
      natOfDigits ((text.toList.drop 2).takeWhile Char.isDigit) := by
  have hm0 := hm
  unfold fetchResponseM at hm
  rw [mseq_eq_some] at hm
  obtain ⟨c1, r1, c2, h1, h2, hc⟩ := hm
  rw [mseq_eq_some] at h2
  obtain ⟨c3, r2, c4, h3, h4, hc2⟩ := h2
  rw [mseq_eq_some] at h4
  obtain ⟨c5, r3, c6, h5, h6, hc4⟩ := h4
  rw [mseq_eq_some] at h6
  obtain ⟨c7, r4, c8, h7, h8, hc6⟩ := h6
  rw [mseq_eq_some] at h8
  obtain ⟨c9, r5, c10, h9, h10, hc8⟩ := h8
  rw [mseq_eq_some] at h10
  obtain ⟨c11, r6, c12, h11, h12, hc10⟩ := h10
  rw [show lit "*" = strM ['*'] from rfl, strM_eq_some] at h1
  obtain ⟨hc1, ht⟩ := h1
  rw [show spM = strM [' '] from rfl, strM_eq_some] at h3
  obtain ⟨hc3, hr1⟩ := h3
  rw [numberM_eq_some] at h5
  obtain ⟨hc5, hne, hr3⟩ := h5
  rw [show spM = strM [' '] from rfl, strM_eq_some] at h7
  obtain ⟨hc7, hr3'⟩ := h7
  rw [show lit "FETCH" = strM ['F', 'E', 'T', 'C', 'H'] from rfl, strM_eq_some] at h9
  obtain ⟨hc9, hr4⟩ := h9
  rw [show spM = strM [' '] from rfl, strM_eq_some] at h11
  obtain ⟨hc11, hr5⟩ := h11
  subst hc hc2 hc4 hc6 hc8 hc10 hc1 hc3 hc5 hc7 hc9 hc11
  -- the digits of the `number` component are exactly the digits at the head
  have hall : ∀ x ∈ r2.takeWhile Char.isDigit, Char.isDigit x = true :=
    fun _ hx => takeWhile_sat hx
  -- shape of the consumed span
  have hcsh : ['*'] ++ ([' '] ++ (r2.takeWhile Char.isDigit ++ ([' '] ++
      (['F', 'E', 'T', 'C', 'H'] ++ ([' '] ++ c12))))) =
      '*' :: ' ' :: (r2.takeWhile Char.isDigit ++
        (' ' :: (['F', 'E', 'T', 'C', 'H'] ++ (' ' :: c12)))) := by
    simp
  have hmsg : msgNumM (['*'] ++ ([' '] ++ (r2.takeWhile Char.isDigit ++ ([' '] ++
      (['F', 'E', 'T', 'C', 'H'] ++ ([' '] ++ c12)))))) =
      some (r2.takeWhile Char.isDigit) := by
    rw [hcsh]
    show (if '*' = '*' ∧ ' ' = ' ' then _ else none) = _
    rw [if_pos ⟨rfl, rfl⟩]
    have htk : (r2.takeWhile Char.isDigit ++
        (' ' :: (['F', 'E', 'T', 'C', 'H'] ++ (' ' :: c12)))).takeWhile Char.isDigit =
        r2.takeWhile Char.isDigit := by
      rw [takeWhile_append_all hall]
      simp [List.takeWhile_cons]
    have hdr : (r2.takeWhile Char.isDigit ++
        (' ' :: (['F', 'E', 'T', 'C', 'H'] ++ (' ' :: c12)))).dropWhile Char.isDigit =
        ' ' :: (['F', 'E', 'T', 'C', 'H'] ++ (' ' :: c12)) := by
      rw [dropWhile_append_all hall]
      simp [List.dropWhile_cons]
    have hpref : (" FETCH".toList).isPrefixOf
        (' ' :: (['F', 'E', 'T', 'C', 'H'] ++ (' ' :: c12))) = true := by
      apply (isPrefixOf_iff_ex _ _).mpr
      exact ⟨' ' :: c12, by simp⟩
    rw [htk, hdr, if_neg hne, hpref, if_pos rfl]
    rw [if_pos (show '*' = '*' ∧ ' ' = ' ' from ⟨rfl, rfl⟩)]
  constructor
  · unfold parse_fetch_response parsePartialRule parsePartialAttempt
    rw [if_pos rfl, hs, hm0]
  · show (match msgNumM _ with
      | some d => natOfDigits d
      | none => 0) = _
    rw [hmsg]
    have ht2 : text.toList.drop 2 = r2 := by
      rw [ht, hr1]
      rfl
    rw [ht2]

/-- Witness for `msg_number_eq_head_digits` at `* 41 FETCH ()`. -/
theorem msg_number_eq_head_digits_w :
    parse_fetch_response "* 41 FETCH ()" =
      .success (.fetch (transformFetch ("* 41 FETCH ()".toList))) ∧
    (transformFetch ("* 41 FETCH ()".toList)).message_number =
      natOfDigits (("* 41 FETCH ()".toList.drop 2).takeWhile Char.isDigit) := by
  exact msg_number_eq_head_digits "* 41 FETCH ()"
    ("* 41 FETCH ()".toList) [] (by decide) (by decide)

end AnyRFC
